import Mathlib

/-!
Shallow embedding of the hadesmem patcher core
(`src/include/memory/hadesmem/patcher.hpp`) and of the cerberus
`CreateProcessInternalW` detour (`src/examples/cerberus/process.cpp`).

Target-process memory is modelled as a total byte map `Nat → Nat`; the
external memory I/O facade (`ReadVector` / `WriteVector` / `Read<void*>`)
becomes `readBytes` / `writeBytes` / `readWord`.  The program counters of
the other (suspended) threads of the process are a `List Nat`.  The
external allocator and the external disassembler (udis86) are passed in
as parameters of the operations that consume them: `trampBase` stands
for the 45-byte trampoline allocation, `supply` for the successive
results of `AllocatePageNear`, and `insns` for the instruction stream
the decoder produces for the prologue bytes.
-/

namespace Hadesmem

/-- A byte map standing for the target process address space. -/
abbrev Mem := Nat → Nat

def memUpd (m : Mem) (a b : Nat) : Mem := fun x => if x = a then b else m x

/-- `WriteVector`: store a byte list at consecutive addresses. -/
def writeBytes : Mem → Nat → List Nat → Mem
  | m, _, [] => m
  | m, a, b :: bs => writeBytes (memUpd m a b) (a + 1) bs

/-- `ReadVector`: read `n` consecutive bytes. -/
def readBytes : Mem → Nat → Nat → List Nat
  | _, _, 0 => []
  | m, a, n + 1 => m a :: readBytes m (a + 1) n

/-- `Read<void*>` on x64: an 8-byte little-endian load. -/
def readWord (m : Mem) (a : Nat) : Nat :=
  (readBytes m a 8).foldr (fun b acc => b + 256 * acc) 0

/-- Little-endian encoding of the low 32 bits of a value. -/
def toLE4 (n : Nat) : List Nat :=
  [n % 256, n / 256 % 256, n / 65536 % 256, n / 16777216 % 256]

/-- Little-endian encoding of the low 64 bits of a value. -/
def toLE8 (n : Nat) : List Nat :=
  toLE4 (n % 4294967296) ++ toLE4 (n / 4294967296 % 4294967296)

/-- `detail::IsExecutingInRange`: does a program counter lie in
`[target, target + len)`? -/
def pcInRange (pc target len : Nat) : Bool :=
  decide (target ≤ pc) && decide (pc < target + len)

/-- `detail::VerifyPatchThreads`: the C++ walks every thread other than
the caller and throws if one executes inside the range.  The model
returns `false` exactly when the C++ would throw; `threads` holds the
program counters of the other threads. -/
def verifyPatchThreads (threads : List Nat) (target len : Nat) : Bool :=
  threads.all (fun pc => !pcInRange pc target len)

def threadBusyMsg : String := "Thread is currently executing patch target."

/-! ## Byte-map lemmas -/

theorem readBytes_length (m : Mem) (a n : Nat) : (readBytes m a n).length = n := by
  induction n generalizing m a with
  | zero => rfl
  | succ k ih => simp [readBytes, ih]

theorem writeBytes_apply_lt (bs : List Nat) (m : Mem) (a x : Nat) (h : x < a) :
    writeBytes m a bs x = m x := by
  induction bs generalizing m a with
  | nil => rfl
  | cons b bs ih =>
    have hx : x ≠ a := Nat.ne_of_lt h
    simp [writeBytes, ih (memUpd m a b) (a + 1) (Nat.lt_succ_of_lt h), memUpd, hx]

theorem readBytes_writeBytes (bs : List Nat) (m : Mem) (a : Nat) :
    readBytes (writeBytes m a bs) a bs.length = bs := by
  induction bs generalizing m a with
  | nil => rfl
  | cons b bs ih =>
    simp only [writeBytes, List.length_cons, readBytes, List.cons.injEq]
    constructor
    · rw [writeBytes_apply_lt bs (memUpd m a b) (a + 1) a (Nat.lt_succ_self a)]
      simp [memUpd]
    · exact ih (memUpd m a b) (a + 1)

theorem verifyPatchThreads_false_of_mem (threads : List Nat) (target len pc : Nat)
    (hmem : pc ∈ threads) (h1 : target ≤ pc) (h2 : pc < target + len) :
    verifyPatchThreads threads target len = false := by
  unfold verifyPatchThreads
  rw [← Bool.not_eq_true, List.all_eq_true]
  intro hall
  have := hall pc hmem
  simp [pcInRange, h1, h2] at this

/-! ## PatchRaw -/

/-- `PatchRaw` state: target address, desired bytes, saved bytes, flags. -/
structure PatchRaw where
  applied : Bool
  detached : Bool
  target : Nat
  data : List Nat
  orig : List Nat

/-- `PatchRaw::Apply`.  Returns (outcome, patch state, memory); the C++
mutates the object in place, so the state is threaded through even on
the error path. -/
def PatchRaw.apply (p : PatchRaw) (threads : List Nat) (m : Mem) :
    Except String Unit × PatchRaw × Mem :=
  if p.applied then (.ok (), p, m)
  else if p.detached then (.ok (), p, m)
  else if !verifyPatchThreads threads p.target p.data.length then
    (.error threadBusyMsg, p, m)
  else
    (.ok (),
      { p with orig := readBytes m p.target p.data.length, applied := true },
      writeBytes m p.target p.data)

/-- `PatchRaw::Remove`. -/
def PatchRaw.remove (p : PatchRaw) (threads : List Nat) (m : Mem) :
    Except String Unit × PatchRaw × Mem :=
  if !p.applied then (.ok (), p, m)
  else if !verifyPatchThreads threads p.target p.data.length then
    (.error threadBusyMsg, p, m)
  else
    (.ok (), { p with applied := false }, writeBytes m p.target p.orig)

/-- `PatchRaw::Detach`. -/
def PatchRaw.detach (p : PatchRaw) : PatchRaw :=
  { p with applied := false, detached := true }

/-- `~PatchRaw` runs `RemoveUnchecked`, whose only memory effect is that
of `Remove`; the result is the memory after destruction. -/
def PatchRaw.destruct (p : PatchRaw) (threads : List Nat) (m : Mem) : Mem :=
  (p.remove threads m).2.2

/-! ## Jump planning and encoding (x64) -/

/-- `PatchDetour::IsNear` on x64: the signed displacement
`target - address - 5` is compared against the *unsigned* 32-bit
minimum (0) and maximum (4294967295). -/
def isNear (address target : Int) : Bool :=
  decide (target - address - 5 > 0) && decide (target - address - 5 < 4294967295)

def kJmpSize32 : Nat := 5

def kJmpSize64 : Nat := 6

/-- The patch kinds whose virtuals the detour apply/remove orchestration
dispatches through: `PatchDetour` itself, `PatchInt3`, `PatchDr`. -/
inductive PatchKind
  | detour
  | int3
  | dr
deriving DecidableEq

/-- `GetPatchSize` dispatch: `PatchDetour` picks 5 or 6 bytes from
`IsNear(target_, detour_)`; `PatchInt3` and `PatchDr` return 1. -/
def patchSizeOf : PatchKind → Nat → Nat → Nat
  | .detour, target, detour =>
    if isNear (target : Int) (detour : Int) then kJmpSize32 else kJmpSize64
  | .int3, _, _ => 1
  | .dr, _, _ => 1

/-- `GenJmp32`: `E9` + rel32, displacement `target - address - 4 - 1`. -/
def genJmp32 (address target : Nat) : List Nat :=
  0xE9 :: toLE4 (((target : Int) - (address : Int) - 5).emod 4294967296).toNat

/-- `GenJmpTramp64`: `FF 25` + rel32 to the 8-byte slot. -/
def genJmpTramp64 (address trampAddr : Nat) : List Nat :=
  0xFF :: 0x25 :: toLE4 (((trampAddr : Int) - (address : Int) - 6).emod 4294967296).toNat

/-- `GenCallTramp64`: `FF 15` + rel32 to the 8-byte slot. -/
def genCallTramp64 (address trampAddr : Nat) : List Nat :=
  0xFF :: 0x15 :: toLE4 (((trampAddr : Int) - (address : Int) - 6).emod 4294967296).toNat

/-- `GenPush32Ret`: `68 imm32 C3`. -/
def genPush32Ret (target : Nat) : List Nat :=
  0x68 :: (toLE4 (target % 4294967296) ++ [0xC3])

/-- `GenPush64Ret`: `68 imm32` + `C7 44 24 04 imm32` + `C3`. -/
def genPush64Ret (target : Nat) : List Nat :=
  0x68 :: (toLE4 (target % 4294967296) ++
    (0xC7 :: 0x44 :: 0x24 :: 0x04 ::
      (toLE4 (target / 4294967296 % 4294967296) ++ [0xC3])))

/-- One recorded invocation of the jump writer `WriteJump`. -/
structure JumpWrite where
  address : Nat
  target : Nat
  allowPushRet : Bool
deriving DecidableEq

/-- Shared mutable context of the emission routines: the process memory,
the island allocations collected in `trampolines_`, the remaining
`AllocatePageNear` results, and the trace of jump-writer invocations. -/
structure EmitSt where
  mem : Mem
  islands : List Nat
  supply : List (Option Nat)
  calls : List JumpWrite

/-- Take the next `AllocatePageNear` outcome; an exhausted supply means
the allocator found no block. -/
def popAlloc : List (Option Nat) → Option Nat × List (Option Nat)
  | [] => (none, [])
  | a :: rest => (a, rest)

/-- `PatchDetour::WriteJump` (x64): relative jump when near; otherwise an
indirect jump through a freshly allocated 8-byte slot; otherwise, only
when `push_ret_fallback` is allowed, a push/ret sequence.  Returns the
number of bytes emitted at `address`.  Every invocation is recorded in
`calls`. -/
def writeJump (st : EmitSt) (address target : Nat) (allowPushRet : Bool) :
    Except String (Nat × EmitSt) :=
  let st1 := { st with calls := st.calls ++ [JumpWrite.mk address target allowPushRet] }
  if isNear (address : Int) (target : Int) then
    let buf := genJmp32 address target
    .ok (buf.length, { st1 with mem := writeBytes st1.mem address buf })
  else
    match popAlloc st1.supply with
    | (some slot, rest) =>
      let m1 := writeBytes st1.mem slot (toLE8 target)
      let buf := genJmpTramp64 address slot
      .ok (buf.length,
        { st1 with
          mem := writeBytes m1 address buf,
          islands := st1.islands ++ [slot],
          supply := rest })
    | (none, rest) =>
      if !allowPushRet then
        .error "Unable to use a relative or trampoline jump, and push/ret fallback is disabled."
      else
        let buf :=
          if target / 4294967296 % 4294967296 ≠ 0 then genPush64Ret target
          else genPush32Ret target
        .ok (buf.length,
          { st1 with mem := writeBytes st1.mem address buf, supply := rest })

/-- `PatchDetour::WriteCall` (x64): always an indirect call through a
freshly allocated slot; `AllocatePageNear` failure propagates. -/
def writeCall (st : EmitSt) (address target : Nat) :
    Except String (Nat × EmitSt) :=
  match popAlloc st.supply with
  | (some slot, rest) =>
    let m1 := writeBytes st.mem slot (toLE8 target)
    let buf := genCallTramp64 address slot
    .ok (buf.length,
      { st with
        mem := writeBytes m1 address buf,
        islands := st.islands ++ [slot],
        supply := rest })
  | (none, _) => .error "Failed to find trampoline memory block."

/-! ## Prologue relocation -/

inductive Mnem
  | jmp
  | call
  | other
deriving DecidableEq, BEq

/-- Decoded operand shape, as udis86 reports it: `UD_OP_JIMM` with its
size and signed immediate, or the `JMP/CALL QWORD PTR [RIP+Rel32]` form
(`UD_OP_MEM`, base RIP, no index, size 0x40) with its offset size and
signed displacement. -/
inductive UdOp
  | jimm (size : Nat) (lval : Int)
  | ripMem (offset : Nat) (lval : Int)
  | other
deriving DecidableEq

/-- One decoded instruction: mnemonic, operand 0, raw bytes, and the
program counter `ud_insn_off` reports for it. -/
structure Insn where
  mnemonic : Mnem
  op : UdOp
  bytes : List Nat
  off : Nat
deriving DecidableEq

def Insn.len (i : Insn) : Nat := i.bytes.length

def sizeOk (size : Nat) : Bool :=
  (size == 8) || (size == 16) || (size == 32) || (size == 64)

/-- Pointer arithmetic result truncated to the 64-bit address space. -/
def intToAddr (x : Int) : Nat := (x.emod 18446744073709551616).toNat

/-- One iteration of the relocation loop in `PatchDetour::Apply`: a
direct `JMP`/`CALL` with a sign-extended immediate, or a RIP-relative
indirect `JMP`, is resolved and re-emitted through the writers (the jump
writer is invoked with `push_ret_fallback = true`); anything else is
copied verbatim.  Returns the number of trampoline bytes emitted. -/
def relocInsn (st : EmitSt) (trampCur : Nat) (i : Insn) :
    Except String (Nat × EmitSt) :=
  let isJimm := match i.op with | .jimm _ _ => true | _ => false
  let isJmem := match i.op with | .ripMem _ _ => true | _ => false
  if ((i.mnemonic == .jmp) || (i.mnemonic == .call)) && (isJimm || isJmem) then
    let size := match i.op with | .jimm s _ => s | .ripMem o _ => o | .other => 0
    if !sizeOk size then .error "Unknown instruction size."
    else
      let insnTarget : Int := match i.op with | .jimm _ v => v | .ripMem _ v => v | .other => 0
      let resolved := intToAddr ((i.off : Int) + insnTarget + (i.len : Int))
      let jumpTarget := if isJimm then resolved else readWord st.mem resolved
      if i.mnemonic == .jmp then writeJump st trampCur jumpTarget true
      else writeCall st trampCur jumpTarget
  else
    .ok (i.len, { st with mem := writeBytes st.mem trampCur i.bytes })

/-- The do-while relocation loop: disassemble-and-emit until the copied
prologue covers `patchSize` bytes.  A zero-length instruction (decoder
failure) or exhausting the stream aborts, mirroring the C++ throwing on
`ud_disassemble` returning 0.  Returns the final state, `instr_size`,
and the trampoline cursor. -/
def relocLoop : List Insn → Nat → Nat → Nat → EmitSt → Except String (EmitSt × Nat × Nat)
  | [], _, _, _, _ => .error "Disassembly failed."
  | i :: rest, patchSize, instrSize, trampCur, st =>
    if i.len == 0 then .error "Disassembly failed."
    else
      match relocInsn st trampCur i with
      | .error e => .error e
      | .ok (written, st1) =>
        let instrSize1 := instrSize + i.len
        if instrSize1 < patchSize then
          relocLoop rest patchSize instrSize1 (trampCur + written) st1
        else
          .ok (st1, instrSize1, trampCur + written)

/-- Trampoline construction in `PatchDetour::Apply`: relocate the
prologue, then append the jump back to `target_ + instr_size` (with the
push/ret fallback permitted).  Returns the final state and `instr_size`. -/
def buildTrampoline (st : EmitSt) (insns : List Insn)
    (patchSize target trampBase : Nat) : Except String (EmitSt × Nat) :=
  match relocLoop insns patchSize 0 trampBase st with
  | .error e => .error e
  | .ok (st1, instrSize, trampCur) =>
    match writeJump st1 trampCur (target + instrSize) true with
    | .error e => .error e
    | .ok (_, st2) => .ok (st2, instrSize)

/-! ## Exception registry and debug registers -/

/-- `std::map` lookup, keys and values both numeric (addresses, patch
object identities, thread ids, register indices). -/
def mapLookup (m : List (Nat × Nat)) (k : Nat) : Option Nat :=
  (m.find? (fun e => e.1 == k)).map (fun e => e.2)

/-- `std::map::erase(k)`. -/
def mapErase (m : List (Nat × Nat)) (k : Nat) : List (Nat × Nat) :=
  m.filter (fun e => e.1 != k)

/-- `std::map::operator[](k) = v`: overwrite an existing entry for `k`
or insert a fresh one. -/
def mapInsert (m : List (Nat × Nat)) (k v : Nat) : List (Nat × Nat) :=
  (k, v) :: mapErase m k

/-- The debug-register portion of a `CONTEXT` (Dr0-Dr3 and Dr7). -/
structure DrCtx where
  dr0 : Nat
  dr1 : Nat
  dr2 : Nat
  dr3 : Nat
  dr7 : Nat
deriving DecidableEq

/-- `(&context.Dr0)[i]`. -/
def getDr (c : DrCtx) : Nat → Nat
  | 0 => c.dr0
  | 1 => c.dr1
  | 2 => c.dr2
  | 3 => c.dr3
  | _ => 0

/-- `(&context.Dr0)[i] = v`. -/
def setDr (c : DrCtx) : Nat → Nat → DrCtx
  | 0, v => { c with dr0 := v }
  | 1, v => { c with dr1 := v }
  | 2, v => { c with dr2 := v }
  | 3, v => { c with dr3 := v }
  | _, _ => c

def mask64 : Nat := 18446744073709551615

/-- Availability test of `PatchDr::WritePatch`: the control bit
`Dr7 & (1 << (i*2))` is clear and the register itself is zero. -/
def drAvailable (c : DrCtx) (i : Nat) : Bool :=
  !(c.dr7.testBit (2 * i)) && (getDr c i == 0)

/-- The selection loop `for (i = 0; i < 4; ++i)` of `PatchDr::WritePatch`. -/
def drSelect (c : DrCtx) : Option Nat :=
  if drAvailable c 0 then some 0
  else if drAvailable c 1 then some 1
  else if drAvailable c 2 then some 2
  else if drAvailable c 3 then some 3
  else none

/-- `PatchDr::WritePatch`: register in the VEH map, pick a free debug
register, record the thread's register index, program Dr0-Dr3/Dr7 and
commit the context.  On `No free debug registers.` the scope warden
rolls the VEH map entry back.  The value ORed into the RW and LEN fields
is zero in the source (execute / 1 byte), and is kept as such here. -/
def drWritePatch (selfId tid target : Nat) (veh drh : List (Nat × Nat)) (c : DrCtx) :
    Except String Unit × List (Nat × Nat) × List (Nat × Nat) × DrCtx :=
  let veh1 := mapInsert veh target selfId
  match drSelect c with
  | none => (.error "No free debug registers.", mapErase veh1 target, drh, c)
  | some i =>
    let drh1 := mapInsert drh tid i
    let c1 := setDr c i target
    let d7a := c1.dr7 ||| (1 <<< (2 * i))
    let d7b := d7a ||| (0 <<< (16 + 4 * i))
    let d7c := d7b ||| (0 <<< (18 + 4 * i))
    let d7d := d7c ||| (1 <<< 8)
    (.ok (), veh1, drh1, { c1 with dr7 := d7d })

/-- `PatchDr::RemovePatch`: zero the recorded register, clear its L-bit
in Dr7, commit, and erase both registry entries.  The source asserts the
thread has an entry in the DR map; a missing entry is modelled as an
error. -/
def drRemovePatch (tid target : Nat) (veh drh : List (Nat × Nat)) (c : DrCtx) :
    Except String Unit × List (Nat × Nat) × List (Nat × Nat) × DrCtx :=
  match mapLookup drh tid with
  | none => (.error "Debug register hook missing for thread.", veh, drh, c)
  | some i =>
    let c1 := setDr c i 0
    let c2 := { c1 with dr7 := c1.dr7 &&& (mask64 ^^^ (1 <<< (2 * i))) }
    (.ok (), mapErase veh target, mapErase drh tid, c2)

/-- The assertion at the top of `PatchInt3::WritePatch`:
`veh_hooks.find(target_) == std::end(veh_hooks)`.  It is a debug-only
check; release builds proceed regardless. -/
def int3WritePatchAssert (veh : List (Nat × Nat)) (target : Nat) : Bool :=
  (mapLookup veh target).isNone

/-- `PatchInt3::WritePatch` (release semantics): store `this` in the VEH
map at `target_` and write the `0xCC` byte. -/
def int3WritePatch (selfId target : Nat) (veh : List (Nat × Nat)) (m : Mem) :
    List (Nat × Nat) × Mem :=
  (mapInsert veh target selfId, writeBytes m target [0xCC])

/-- `PatchInt3::RemovePatch`: restore the saved byte and erase the VEH
map entry. -/
def int3RemovePatch (target : Nat) (veh : List (Nat × Nat)) (m : Mem) (orig : List Nat) :
    List (Nat × Nat) × Mem :=
  (mapErase veh target, writeBytes m target orig)

/-! ## PatchDetour and its subclasses -/

/-- Process-wide state the VEH patch kinds touch besides plain memory:
the `addr → patch` map, the `thread → dr index` map, and the calling
thread's debug-register context. -/
structure VehWorld where
  veh : List (Nat × Nat)
  drh : List (Nat × Nat)
  ctx : DrCtx

/-- `PatchDetour` object state (shared by `PatchInt3` and `PatchDr`). -/
structure PatchDetour where
  applied : Bool
  detached : Bool
  target : Nat
  detour : Nat
  trampoline : Option Nat
  orig : List Nat
  trampolines : List Nat

/-- `PatchDetour::WritePatch`: a jump to the detour at the target with
the push/ret fallback disabled. -/
def writePatchDetour (st : EmitSt) (target detour : Nat) :
    Except String (Nat × EmitSt) :=
  writeJump st target detour false

/-- `WritePatch` virtual dispatch. -/
def writePatchOf (k : PatchKind) (p : PatchDetour) (selfId tid : Nat)
    (st : EmitSt) (vw : VehWorld) : Except String Unit × EmitSt × VehWorld :=
  match k with
  | .detour =>
    match writePatchDetour st p.target p.detour with
    | .error e => (.error e, st, vw)
    | .ok (_, st1) => (.ok (), st1, vw)
  | .int3 =>
    let r := int3WritePatch selfId p.target vw.veh st.mem
    (.ok (), { st with mem := r.2 }, { vw with veh := r.1 })
  | .dr =>
    let r := drWritePatch selfId tid p.target vw.veh vw.drh vw.ctx
    (r.1, st, { vw with veh := r.2.1, drh := r.2.2.1, ctx := r.2.2.2 })

/-- `RemovePatch` virtual dispatch. -/
def removePatchOf (k : PatchKind) (p : PatchDetour) (tid : Nat) (m : Mem)
    (vw : VehWorld) : Except String Unit × Mem × VehWorld :=
  match k with
  | .detour => (.ok (), writeBytes m p.target p.orig, vw)
  | .int3 =>
    let r := int3RemovePatch p.target vw.veh m p.orig
    (.ok (), r.2, { vw with veh := r.1 })
  | .dr =>
    let r := drRemovePatch tid p.target vw.veh vw.drh vw.ctx
    (r.1, m, { vw with veh := r.2.1, drh := r.2.2.1, ctx := r.2.2.2 })

/-- `kMaxInstructionLen * 3`, the trampoline allocation size. -/
def kTrampSize : Nat := 45

/-- `PatchDetour::Apply` with the virtuals resolved by `k`: early-outs
for applied/detached, drop the previous cycle's trampoline and islands,
allocate the trampoline (`trampBase`), build it from the decoded
prologue, save the original `patch_size` bytes, verify no other thread
executes inside them, and install the redirection. -/
def PatchDetour.apply (p : PatchDetour) (k : PatchKind) (selfId tid : Nat)
    (threads : List Nat) (insns : List Insn) (trampBase : Nat)
    (supply : List (Option Nat)) (m : Mem) (vw : VehWorld) :
    Except String Unit × PatchDetour × Mem × VehWorld :=
  if p.applied then (.ok (), p, m, vw)
  else if p.detached then (.ok (), p, m, vw)
  else
    let p1 := { p with trampoline := some trampBase, trampolines := [] }
    let ps := patchSizeOf k p1.target p1.detour
    match buildTrampoline ⟨m, [], supply, []⟩ insns ps p1.target trampBase with
    | .error e => (.error e, p1, m, vw)
    | .ok (st1, _instrSize) =>
      let orig := readBytes st1.mem p1.target ps
      let p2 := { p1 with orig := orig, trampolines := st1.islands }
      if !verifyPatchThreads threads p2.target orig.length then
        (.error threadBusyMsg, p2, st1.mem, vw)
      else
        match writePatchOf k p2 selfId tid st1 vw with
        | (.error e, st2, vw2) =>
          (.error e, { p2 with trampolines := st2.islands }, st2.mem, vw2)
        | (.ok _, st2, vw2) =>
          (.ok (), { p2 with trampolines := st2.islands, applied := true }, st2.mem, vw2)

/-- `PatchDetour::Remove`: verify no other thread executes in the target
prologue or anywhere in the trampoline, undo the redirection, and mark
inert.  The trampoline and island allocations are deliberately kept. -/
def PatchDetour.remove (p : PatchDetour) (k : PatchKind) (tid : Nat)
    (threads : List Nat) (m : Mem) (vw : VehWorld) :
    Except String Unit × PatchDetour × Mem × VehWorld :=
  if !p.applied then (.ok (), p, m, vw)
  else
    match p.trampoline with
    | none => (.error "Trampoline missing.", p, m, vw)
    | some tb =>
      if !verifyPatchThreads threads p.target p.orig.length then
        (.error threadBusyMsg, p, m, vw)
      else if !verifyPatchThreads threads tb kTrampSize then
        (.error threadBusyMsg, p, m, vw)
      else
        match removePatchOf k p tid m vw with
        | (.error e, m1, vw1) => (.error e, p, m1, vw1)
        | (.ok _, m1, vw1) => (.ok (), { p with applied := false }, m1, vw1)

/-- `PatchDetour::Detach`. -/
def PatchDetour.detach (p : PatchDetour) : PatchDetour :=
  { p with applied := false, detached := true }

/-- `~PatchDetour` runs `RemoveUnchecked`, whose only effect on the
process is that of `Remove`; the result is (memory, registry state)
after destruction. -/
def PatchDetour.destruct (p : PatchDetour) (k : PatchKind) (tid : Nat)
    (threads : List Nat) (m : Mem) (vw : VehWorld) : Mem × VehWorld :=
  ((p.remove k tid threads m vw).2.2.1, (p.remove k tid threads m vw).2.2.2)

/-! ## The cerberus CreateProcessInternalW detour -/

def CREATE_SUSPENDED : Nat := 4

/-- Observable outcome of one `CreateProcessInternalWDetour` call: the
creation flags passed to the real function, whether the child's initial
thread ends up resumed on scope exit, whether the injection logic ran,
and the value returned to the caller. -/
structure CpiwOutcome where
  flagsPassed : Nat
  resumed : Bool
  injectionAttempted : Bool
  ret : Bool
deriving DecidableEq

/-- `CreateProcessInternalWDetour` control flow: the trampoline is always
called with `creation_flags | CREATE_SUSPENDED`; an `EnsureResumeThread`
guard is armed exactly when the call succeeded and the caller did not
itself pass `CREATE_SUSPENDED` (its destructor resumes the thread on
every exit path); the thread-local `in_hook` flag short-circuits before
any injection work; a failed underlying call also skips injection. -/
def createProcessInternalWDetour (creationFlags : Nat) (inHook underlyingRet : Bool) :
    CpiwOutcome :=
  let ret := underlyingRet
  let resumed := ret && (creationFlags &&& CREATE_SUSPENDED == 0)
  if inHook then ⟨creationFlags ||| CREATE_SUSPENDED, resumed, false, ret⟩
  else if !ret then ⟨creationFlags ||| CREATE_SUSPENDED, resumed, false, ret⟩
  else ⟨creationFlags ||| CREATE_SUSPENDED, resumed, true, ret⟩

/-! ## Claim theorems -/

/-- C7: for every patch kind, `apply()` on an already-applied patch and
`remove()` on a not-applied patch are no-ops: no memory write, no error,
and the patch state (flags, saved bytes, allocations) is returned
unchanged.  Shown for `PatchRaw` and for the `PatchDetour` family
(`PatchDetour`, `PatchInt3`, `PatchDr` via `k`). -/
theorem c7_double_apply_double_remove_noop (p : PatchRaw) (q : PatchDetour)
    (k : PatchKind) (selfId tid : Nat) (threads : List Nat) (insns : List Insn)
    (trampBase : Nat) (supply : List (Option Nat)) (m : Mem) (vw : VehWorld) :
    PatchRaw.apply { p with applied := true } threads m
      = (.ok (), { p with applied := true }, m)
    ∧ PatchRaw.remove { p with applied := false } threads m
      = (.ok (), { p with applied := false }, m)
    ∧ PatchDetour.apply { q with applied := true } k selfId tid threads insns trampBase supply m vw
      = (.ok (), { q with applied := true }, m, vw)
    ∧ PatchDetour.remove { q with applied := false } k tid threads m vw
      = (.ok (), { q with applied := false }, m, vw) := by
  refine ⟨?_, ?_, ?_, ?_⟩ <;>
    simp [PatchRaw.apply, PatchRaw.remove, PatchDetour.apply, PatchDetour.remove]

/-- C10: `Detach()` marks the patch not-applied without restoring the
target bytes: afterwards `IsApplied()` is false and every subsequent
`Apply()`, `Remove()` and the destructor performs no memory write, so
the patched bytes stay at the target.  Shown for `PatchRaw` and for the
`PatchDetour` family. -/
theorem c10_detach_leaves_bytes_patched (p : PatchRaw) (q : PatchDetour)
    (k : PatchKind) (selfId tid : Nat) (threads : List Nat) (insns : List Insn)
    (trampBase : Nat) (supply : List (Option Nat)) (m : Mem) (vw : VehWorld) :
    (p.detach.applied = false
      ∧ p.detach.apply threads m = (.ok (), p.detach, m)
      ∧ p.detach.remove threads m = (.ok (), p.detach, m)
      ∧ p.detach.destruct threads m = m)
    ∧ (q.detach.applied = false
      ∧ q.detach.apply k selfId tid threads insns trampBase supply m vw
          = (.ok (), q.detach, m, vw)
      ∧ q.detach.remove k tid threads m vw = (.ok (), q.detach, m, vw)
      ∧ q.detach.destruct k tid threads m vw = (m, vw)) := by
  refine ⟨⟨rfl, ?_, ?_, ?_⟩, ⟨rfl, ?_, ?_, ?_⟩⟩ <;>
    simp [PatchRaw.apply, PatchRaw.remove, PatchRaw.detach, PatchRaw.destruct,
      PatchDetour.apply, PatchDetour.remove, PatchDetour.detach, PatchDetour.destruct]

/-- C6: `PatchDetour::Remove` never frees the trampoline or the island
allocations — whatever `remove` returns, the patch still owns the same
`trampoline` and `trampolines` — and the next `apply` from the inert
state behaves exactly as if those allocations had already been dropped
(it clears them first). -/
theorem c6_remove_keeps_trampoline_allocations (q : PatchDetour)
    (k : PatchKind) (selfId tid : Nat) (threads : List Nat) (insns : List Insn)
    (trampBase : Nat) (supply : List (Option Nat)) (m : Mem) (vw : VehWorld) :
    ((q.remove k tid threads m vw).2.1.trampoline = q.trampoline
      ∧ (q.remove k tid threads m vw).2.1.trampolines = q.trampolines)
    ∧ PatchDetour.apply { q with applied := false, detached := false }
        k selfId tid threads insns trampBase supply m vw
      = PatchDetour.apply
          { q with applied := false, detached := false,
                   trampoline := none, trampolines := [] }
          k selfId tid threads insns trampBase supply m vw := by
  refine ⟨?_, ?_⟩
  · unfold PatchDetour.remove
    split
    · exact ⟨rfl, rfl⟩
    · split
      · exact ⟨rfl, rfl⟩
      · split
        · exact ⟨rfl, rfl⟩
        · split
          · exact ⟨rfl, rfl⟩
          · split
            · exact ⟨rfl, rfl⟩
            · exact ⟨rfl, rfl⟩
  · rfl

/-- C9: the `CreateProcessInternalW` detour always forces
`CREATE_SUSPENDED` onto the underlying call; the child's initial thread
is resumed (on every exit path, by the scope guard) exactly when the
underlying call succeeded and the caller did not itself request
`CREATE_SUSPENDED`; and a re-entrant invocation (`in_hook` set) skips
the injection logic entirely, while a successful non-recursive call
attempts it. -/
theorem c9_create_process_detour_contract (cf : Nat) (r ih : Bool) :
    ((createProcessInternalWDetour cf ih r).flagsPassed = cf ||| CREATE_SUSPENDED)
    ∧ ((createProcessInternalWDetour cf ih r).flagsPassed &&& CREATE_SUSPENDED
        = CREATE_SUSPENDED)
    ∧ ((createProcessInternalWDetour cf ih r).resumed
        = (r && (cf &&& CREATE_SUSPENDED == 0)))
    ∧ ((createProcessInternalWDetour cf ih r).ret = r)
    ∧ ((createProcessInternalWDetour cf true r).injectionAttempted = false)
    ∧ ((createProcessInternalWDetour cf false true).injectionAttempted = true) := by
  have hbit : (cf ||| CREATE_SUSPENDED) &&& CREATE_SUSPENDED = CREATE_SUSPENDED := by
    apply Nat.eq_of_testBit_eq
    intro j
    rw [Nat.testBit_and, Nat.testBit_or]
    cases h : CREATE_SUSPENDED.testBit j <;> simp [h]
  unfold createProcessInternalWDetour
  cases ih <;> cases r <;> simp [hbit]

/-- C3 counterexample: the claim says `IsNear` holds exactly for signed
displacements in `[-2^31, 2^31)` and that the planner then picks the
5-byte jump.  At `address = 0, target = 4` the displacement is `-1`,
well inside that interval, yet `IsNear` is false and the planner picks
the 6-byte jump; and at `target = 5 + 2^31` the displacement `2^31` is
outside the interval, yet `IsNear` is true. -/
theorem c3_is_near_signed_range_counterexample :
    (isNear 0 4 = false
      ∧ (-(2 ^ 31) ≤ (4 : Int) - 0 - 5 ∧ (4 : Int) - 0 - 5 < 2 ^ 31)
      ∧ patchSizeOf .detour 0 4 = 6)
    ∧ (isNear 0 (5 + 2 ^ 31) = true
      ∧ ¬((5 + 2 ^ 31 : Int) - 0 - 5 < 2 ^ 31)
      ∧ patchSizeOf .detour 0 (5 + 2 ^ 31) = 5) := by
  refine ⟨⟨?_, by decide, ?_⟩, ⟨?_, by decide, ?_⟩⟩ <;> decide

/-- C3 amended: `IsNear(address, target)` is true exactly when the
signed displacement `target - address - 5` lies strictly between the
*unsigned* 32-bit minimum and maximum, i.e. in `(0, 2^32 - 1)`; the
planner picks the 5-byte relative jump precisely then, and the 6-byte
indirect jump otherwise. -/
theorem c3_is_near_unsigned_bounds (a t : Int) (target detour : Nat) :
    (isNear a t = true ↔ (0 < t - a - 5 ∧ t - a - 5 < 4294967295))
    ∧ (patchSizeOf .detour target detour = 5 ↔
        (0 < (detour : Int) - (target : Int) - 5
          ∧ (detour : Int) - (target : Int) - 5 < 4294967295)) := by
  have hiff : ∀ a t : Int,
      isNear a t = true ↔ (0 < t - a - 5 ∧ t - a - 5 < 4294967295) := by
    intro a t
    constructor
    · intro h
      rw [isNear, Bool.and_eq_true, decide_eq_true_iff, decide_eq_true_iff] at h
      omega
    · intro h
      rw [isNear, Bool.and_eq_true, decide_eq_true_iff, decide_eq_true_iff]
      omega
  refine ⟨hiff a t, ?_⟩
  by_cases h : isNear (target : Int) (detour : Int)
  · simp [patchSizeOf, h, kJmpSize32, (hiff _ _).mp h]
  · have hnot : ¬(0 < (detour : Int) - (target : Int) - 5
        ∧ (detour : Int) - (target : Int) - 5 < 4294967295) :=
      fun hc => h ((hiff _ _).mpr hc)
    have h6 : patchSizeOf .detour target detour = kJmpSize64 := by
      simp [patchSizeOf, h]
    rw [h6]
    simp only [kJmpSize64]
    constructor
    · intro habs
      exact absurd habs (by decide)
    · intro hc
      exact absurd hc hnot

/-! C5 scenario: a first `PatchInt3` (identity 1) is applied at target
address 100, so the VEH registry maps 100 to it and the byte at 100 is
`0xCC`.  A second `PatchInt3` (identity 2) at the same target is then
applied: its prologue disassembles to the single `int3` instruction. -/

def c5memory : Mem := writeBytes (fun _ => 0) 100 [0xCC]

def c5vehBefore : List (Nat × Nat) := [(100, 1)]

def c5insns : List Insn := [⟨Mnem.other, UdOp.other, [0xCC], 100⟩]

def c5second : PatchDetour := ⟨false, false, 100, 500, none, [], []⟩

def c5result : Except String Unit × PatchDetour × Mem × VehWorld :=
  PatchDetour.apply c5second .int3 2 7 [] c5insns 2000 [some 3000] c5memory
    ⟨c5vehBefore, [], ⟨0, 0, 0, 0, 0⟩⟩

/-- C5: the claim (and the assertion inside `PatchInt3::WritePatch`)
says a second breakpoint patch at an already-registered address is
rejected.  Evaluating the code at the scenario above, the assertion
`veh_hooks.find(target_) == std::end(veh_hooks)` is violated, yet the
second `apply` succeeds, the registry entry is silently overwritten to
the second patch (the first is orphaned, no longer dispatched), and no
`DuplicateHook` error is raised. -/
theorem c5_duplicate_int3_overwrites_registry :
    int3WritePatchAssert c5vehBefore 100 = false
    ∧ c5result.1 = .ok ()
    ∧ c5result.2.1.applied = true
    ∧ mapLookup c5result.2.2.2.veh 100 = some 2 := by
  refine ⟨rfl, rfl, rfl, rfl⟩

/-! ## Registry and debug-register lemmas -/

theorem mapLookup_insert (m : List (Nat × Nat)) (k v : Nat) :
    mapLookup (mapInsert m k v) k = some v := by
  simp [mapLookup, mapInsert, List.find?]

theorem mapErase_insert (m : List (Nat × Nat)) (k v : Nat) :
    mapErase (mapInsert m k v) k = mapErase m k := by
  simp [mapInsert, mapErase, List.filter_filter]

theorem drAvailable_spec (c : DrCtx) (i : Nat) (h : drAvailable c i = true) :
    c.dr7.testBit (2 * i) = false ∧ getDr c i = 0 := by
  rw [drAvailable, Bool.and_eq_true] at h
  refine ⟨?_, ?_⟩
  · have := h.1
    simpa using this
  · have := h.2
    simpa using this

theorem drSelect_spec (c : DrCtx) (i : Nat) (h : drSelect c = some i) :
    (i = 0 ∨ i = 1 ∨ i = 2 ∨ i = 3)
    ∧ c.dr7.testBit (2 * i) = false ∧ getDr c i = 0 := by
  unfold drSelect at h
  split at h
  · next hav => cases h; exact ⟨Or.inl rfl, drAvailable_spec c 0 hav⟩
  · split at h
    · next hav => cases h; exact ⟨Or.inr (Or.inl rfl), drAvailable_spec c 1 hav⟩
    · split at h
      · next hav => cases h; exact ⟨Or.inr (Or.inr (Or.inl rfl)), drAvailable_spec c 2 hav⟩
      · split at h
        · next hav =>
          cases h; exact ⟨Or.inr (Or.inr (Or.inr rfl)), drAvailable_spec c 3 hav⟩
        · cases h

theorem one_shiftLeft_eq_pow (k : Nat) : (1 <<< k) = 2 ^ k := by
  rw [Nat.shiftLeft_eq, Nat.one_mul]

/-- The Dr7 arithmetic of apply-then-remove: starting from a value with
the chosen L-bit clear, apply ORs in the L-bit, two zero fields and the
LE bit, then remove masks out only the L-bit.  The LE bit survives. -/
theorem dr7_apply_remove (x i : Nat) (hx : x < 2 ^ 64) (hi : i < 4)
    (hbit : x.testBit (2 * i) = false) :
    (((((x ||| (1 <<< (2 * i))) ||| (0 <<< (16 + 4 * i))) ||| (0 <<< (18 + 4 * i)))
        ||| (1 <<< 8)) &&& (mask64 ^^^ (1 <<< (2 * i))))
      = x ||| (1 <<< 8) := by
  have hmask : mask64 = 2 ^ 64 - 1 := rfl
  apply Nat.eq_of_testBit_eq
  intro j
  simp only [one_shiftLeft_eq_pow, Nat.zero_shiftLeft, Nat.or_zero, Nat.testBit_and,
    Nat.testBit_or, Nat.testBit_xor, hmask, Nat.testBit_two_pow_sub_one,
    Nat.testBit_two_pow]
  by_cases hji : 2 * i = j
  · subst hji
    have h64 : 2 * i < 64 := by omega
    simp [hbit, h64, show ¬(8 = 2 * i) by omega]
  · by_cases hj64 : j < 64
    · simp [hji, hj64]
    · have hxj : x.testBit j = false := by
        apply Nat.testBit_lt_two_pow
        calc x < 2 ^ 64 := hx
          _ ≤ 2 ^ j := Nat.pow_le_pow_right (by omega) (by omega)
      simp [hji, hj64, hxj, show ¬(8 = j) by omega]

/-! C8 scenario: a clean debug-register context (all registers and Dr7
zero).  Apply selects Dr0, programs Dr7 = 0x101; remove clears only the
L-bit, leaving Dr7 = 0x100 instead of the original 0. -/

def c8write : Except String Unit × List (Nat × Nat) × List (Nat × Nat) × DrCtx :=
  drWritePatch 1 7 100 [] [] ⟨0, 0, 0, 0, 0⟩

def c8remove : Except String Unit × List (Nat × Nat) × List (Nat × Nat) × DrCtx :=
  drRemovePatch 7 100 c8write.2.1 c8write.2.2.1 c8write.2.2.2

/-- C8 counterexample: the claim says `RemovePatch` undoes all Dr7
modifications including the LE flag at bit 8, restoring the
debug-register state to what it was before apply.  From the all-zero
context, apply sets Dr7 to 257 (L0 and LE) and remove leaves Dr7 at 256:
the LE bit is never cleared, so the state is not restored. -/
theorem c8_dr7_not_restored_counterexample :
    c8write.1 = .ok () ∧ c8write.2.2.2.dr7 = 257
    ∧ c8remove.1 = .ok () ∧ c8remove.2.2.2.dr7 = 256
    ∧ (⟨0, 0, 0, 0, 0⟩ : DrCtx).dr7 = 0
    ∧ c8remove.2.2.2 ≠ (⟨0, 0, 0, 0, 0⟩ : DrCtx) := by
  refine ⟨rfl, by decide, rfl, by decide, rfl, by decide⟩

/-- The apply-then-remove composite on the debug-register world. -/
def drRoundTrip (selfId tid target : Nat) (veh drh : List (Nat × Nat)) (c : DrCtx) :
    Except String Unit × List (Nat × Nat) × List (Nat × Nat) × DrCtx :=
  drRemovePatch tid target
    (drWritePatch selfId tid target veh drh c).2.1
    (drWritePatch selfId tid target veh drh c).2.2.1
    (drWritePatch selfId tid target veh drh c).2.2.2

/-- C8 amended: when apply finds a free debug register, remove (under
the exclusive lock) zeroes that register, clears its L-bit in Dr7,
commits the context, and erases both registry entries; the RW and LEN
"modifications" of apply OR in zero so there is nothing to undo, but the
LE flag (bit 8) set by apply is never cleared, so the debug registers
are restored exactly and Dr7 is restored only up to bit 8: it ends as
the pre-apply value with bit 8 forced on. -/
theorem c8_dr_remove_reverses_all_but_le (selfId tid target : Nat)
    (veh drh : List (Nat × Nat)) (c : DrCtx) (i : Nat)
    (hsel : drSelect c = some i) (h64 : c.dr7 < 2 ^ 64) :
    (drWritePatch selfId tid target veh drh c).1 = .ok ()
    ∧ (drRoundTrip selfId tid target veh drh c).1 = .ok ()
    ∧ (drRoundTrip selfId tid target veh drh c).2.1 = mapErase veh target
    ∧ (drRoundTrip selfId tid target veh drh c).2.2.1 = mapErase drh tid
    ∧ (∀ j, getDr (drRoundTrip selfId tid target veh drh c).2.2.2 j = getDr c j)
    ∧ (drRoundTrip selfId tid target veh drh c).2.2.2.dr7 = c.dr7 ||| (1 <<< 8) := by
  obtain ⟨hi4, hbit, hzero⟩ := drSelect_spec c i hsel
  have hi : i < 4 := by rcases hi4 with rfl | rfl | rfl | rfl <;> omega
  unfold drRoundTrip drWritePatch drRemovePatch
  rw [hsel]
  simp only [mapLookup_insert]
  refine ⟨by trivial, by trivial, ?_, ?_, ?_, ?_⟩
  · exact mapErase_insert veh target selfId
  · exact mapErase_insert drh tid i
  · intro j
    rcases hi4 with rfl | rfl | rfl | rfl <;>
      rcases j with _ | _ | _ | _ | j <;>
      simp [getDr, setDr] <;> simpa [getDr] using hzero.symm
  · have hdr7b : ∀ (d : DrCtx) (v : Nat), (setDr d i v).dr7 = d.dr7 := by
      intro d v
      rcases hi4 with rfl | rfl | rfl | rfl <;> rfl
    simp only [hdr7b]
    exact dr7_apply_remove c.dr7 i h64 hi hbit

/-! ## Jump-writer invocation trace lemmas -/

theorem writeJump_ok_calls (st : EmitSt) (a t : Nat) (b : Bool) (n : Nat) (st' : EmitSt)
    (h : writeJump st a t b = .ok (n, st')) :
    st'.calls = st.calls ++ [JumpWrite.mk a t b] := by
  simp only [writeJump] at h
  split at h
  · cases h; rfl
  · split at h
    · cases h; rfl
    · split at h
      · cases h
      · cases h; rfl

theorem writeCall_ok_calls (st : EmitSt) (a t : Nat) (n : Nat) (st' : EmitSt)
    (h : writeCall st a t = .ok (n, st')) :
    st'.calls = st.calls := by
  simp only [writeCall] at h
  split at h
  · cases h; rfl
  · cases h

theorem relocInsn_calls_true (st : EmitSt) (tc : Nat) (i : Insn) (n : Nat) (st1 : EmitSt)
    (h : relocInsn st tc i = .ok (n, st1))
    (hst : ∀ c ∈ st.calls, c.allowPushRet = true) :
    ∀ c ∈ st1.calls, c.allowPushRet = true := by
  simp only [relocInsn] at h
  split at h
  · split at h
    · cases h
    · split at h
      · have hc1 := writeJump_ok_calls _ _ _ _ _ _ h
        intro c hc
        rw [hc1] at hc
        rcases List.mem_append.mp hc with hc | hc
        · exact hst c hc
        · simp only [List.mem_singleton] at hc
          subst hc
          rfl
      · have hc1 := writeCall_ok_calls _ _ _ _ _ h
        intro c hc
        rw [hc1] at hc
        exact hst c hc
  · cases h
    exact hst

theorem relocLoop_calls_true (insns : List Insn) (ps isz tc : Nat) (st st1 : EmitSt)
    (isz1 tc1 : Nat) (h : relocLoop insns ps isz tc st = .ok (st1, isz1, tc1))
    (hst : ∀ c ∈ st.calls, c.allowPushRet = true) :
    ∀ c ∈ st1.calls, c.allowPushRet = true := by
  induction insns generalizing ps isz tc st with
  | nil => cases h
  | cons i rest ih =>
    rw [relocLoop] at h
    split at h
    · cases h
    · split at h
      · cases h
      · next written stx hre =>
        dsimp only at h
        split at h
        · exact ih _ _ _ _ h (relocInsn_calls_true _ _ _ _ _ hre hst)
        · cases h
          exact relocInsn_calls_true _ _ _ _ _ hre hst

theorem buildTrampoline_calls_true (st : EmitSt) (insns : List Insn)
    (ps target tb : Nat) (st1 : EmitSt) (isz : Nat)
    (h : buildTrampoline st insns ps target tb = .ok (st1, isz))
    (hst : ∀ c ∈ st.calls, c.allowPushRet = true) :
    ∀ c ∈ st1.calls, c.allowPushRet = true := by
  unfold buildTrampoline at h
  split at h
  · cases h
  · next st2 isz2 tc2 hloop =>
    split at h
    · cases h
    · next n st3 hjump =>
      cases h
      have hmid := relocLoop_calls_true _ _ _ _ _ _ _ _ hloop hst
      have hc1 := writeJump_ok_calls _ _ _ _ _ _ hjump
      intro c hc
      rw [hc1] at hc
      rcases List.mem_append.mp hc with hc | hc
      · exact hmid c hc
      · simp only [List.mem_singleton] at hc
        subst hc
        rfl

/-! C4 scenario: a prologue consisting of a single 5-byte direct
`JMP rel32` at address 1000 (immediate 100, so the resolved destination
is 1105), patch size 5, trampoline cursor 2000, no near page available. -/

def c4insns : List Insn := [⟨Mnem.jmp, UdOp.jimm 32 100, [0xE9, 100, 0, 0, 0], 1000⟩]

def c4st0 : EmitSt := ⟨fun _ => 0, [], [], []⟩

/-- The jump-writer invocations the relocation loop performs on the C4
scenario. -/
def c4trace : List JumpWrite :=
  match relocLoop c4insns 5 0 2000 c4st0 with
  | .ok (st, _, _) => st.calls
  | .error _ => []

/-- C4 counterexample: the claim says every jump-writer invocation for a
relocated direct jump passes `allow_push_ret = false`.  On the scenario
above the loop emits exactly one relocated jump, and the writer is
invoked with `allow_push_ret = true` (source line
`tramp_cur += WriteJump(tramp_cur, jump_target, true);`). -/
theorem c4_relocated_jump_flag_counterexample :
    c4trace = [JumpWrite.mk 2000 1105 true]
    ∧ ¬(∀ c ∈ c4trace, c.allowPushRet = false) := by
  refine ⟨by decide, by decide⟩

/-- C4 amended: during prologue relocation every invocation of the jump
writer — for relocated direct jumps and for the tail jump alike — passes
`allow_push_ret = true`, so a relocated jump may fall back to a push/ret
sequence; the only invocation with `allow_push_ret = false` is the
patch-site jump that `PatchDetour::WritePatch` writes at the target. -/
theorem c4_push_ret_flag_policy (st : EmitSt) (insns : List Insn)
    (ps target tb : Nat) (st1 : EmitSt) (isz : Nat) (detour n : Nat) (st2 : EmitSt)
    (h0 : st.calls = [])
    (h1 : buildTrampoline st insns ps target tb = .ok (st1, isz))
    (h2 : writePatchDetour st1 target detour = .ok (n, st2)) :
    (∀ c ∈ st1.calls, c.allowPushRet = true)
    ∧ st2.calls = st1.calls ++ [JumpWrite.mk target detour false] := by
  constructor
  · exact buildTrampoline_calls_true st insns ps target tb st1 isz h1 (by simp [h0])
  · exact writeJump_ok_calls _ _ _ _ _ _ h2

theorem readBytes_writeBytes_of_length (m : Mem) (a n : Nat) (bs : List Nat)
    (h : bs.length = n) : readBytes (writeBytes m a bs) a n = bs := by
  subst h
  exact readBytes_writeBytes bs m a

/-- C2: for every patch kind, if at apply time another thread's program
counter lies inside `[target, target + patch length)`, `apply` fails
with the busy-target error, no byte of the target range changes, and
the patch stays inert.  For `PatchRaw` the patch object and the whole
memory are returned untouched; for the `PatchDetour` family the check
runs after trampoline construction, so the conclusion about the target
range is relative to a trampoline phase that succeeded and (being a
fresh allocation) did not touch the target range. -/
theorem c2_busy_target_fails_apply :
    (∀ (p : PatchRaw) (threads : List Nat) (m : Mem) (pc : Nat),
      p.applied = false → p.detached = false →
      pc ∈ threads → p.target ≤ pc → pc < p.target + p.data.length →
      p.apply threads m = (.error threadBusyMsg, p, m))
    ∧ (∀ (k : PatchKind) (q : PatchDetour) (selfId tid : Nat) (threads : List Nat)
        (insns : List Insn) (tb : Nat) (supply : List (Option Nat)) (m : Mem)
        (vw : VehWorld) (st1 : EmitSt) (isz : Nat) (pc : Nat),
      q.applied = false → q.detached = false →
      buildTrampoline ⟨m, [], supply, []⟩ insns (patchSizeOf k q.target q.detour)
        q.target tb = .ok (st1, isz) →
      readBytes st1.mem q.target (patchSizeOf k q.target q.detour)
        = readBytes m q.target (patchSizeOf k q.target q.detour) →
      pc ∈ threads → q.target ≤ pc →
      pc < q.target + patchSizeOf k q.target q.detour →
      (q.apply k selfId tid threads insns tb supply m vw).1 = .error threadBusyMsg
      ∧ (q.apply k selfId tid threads insns tb supply m vw).2.1.applied = false
      ∧ readBytes (q.apply k selfId tid threads insns tb supply m vw).2.2.1
          q.target (patchSizeOf k q.target q.detour)
        = readBytes m q.target (patchSizeOf k q.target q.detour)) := by
  constructor
  · intro p threads m pc hA hD hmem h1 h2
    have hv := verifyPatchThreads_false_of_mem threads p.target p.data.length pc hmem h1 h2
    simp [PatchRaw.apply, hA, hD, hv]
  · intro k q selfId tid threads insns tb supply m vw st1 isz pc hA hD hbt hpres hmem h1 h2
    have hv := verifyPatchThreads_false_of_mem threads q.target
      (patchSizeOf k q.target q.detour) pc hmem h1 h2
    simp only [PatchDetour.apply, hA, hD, Bool.false_eq_true, if_false]
    rw [hbt]
    simp only [readBytes_length, hv, Bool.not_false, if_true]
    exact ⟨trivial, trivial, hpres⟩

/-- C1: from the inert state, `apply()` then `remove()` is the identity
on the bytes of the target range, for `PatchRaw` (apply saves the
original bytes, remove writes them back) and for `PatchDetour` (the
saved prologue is re-read just before the redirection is written and
restored by `RemovePatch`; the hypothesis that the trampoline
construction — writes to fresh allocations — left the target range
unchanged reflects the allocator returning memory disjoint from the
target). -/
theorem c1_apply_then_remove_roundtrip :
    (∀ (p : PatchRaw) (thr1 thr2 : List Nat) (m : Mem),
      p.applied = false →
      (p.apply thr1 m).1 = .ok () →
      ((p.apply thr1 m).2.1.remove thr2 (p.apply thr1 m).2.2).1 = .ok () →
      readBytes ((p.apply thr1 m).2.1.remove thr2 (p.apply thr1 m).2.2).2.2
          p.target p.data.length
        = readBytes m p.target p.data.length)
    ∧ (∀ (q : PatchDetour) (selfId tid : Nat) (thr1 thr2 : List Nat)
        (insns : List Insn) (tb : Nat) (supply : List (Option Nat)) (m : Mem)
        (vw : VehWorld) (st1 : EmitSt) (isz : Nat),
      q.applied = false → q.detached = false →
      buildTrampoline ⟨m, [], supply, []⟩ insns
        (patchSizeOf .detour q.target q.detour) q.target tb = .ok (st1, isz) →
      readBytes st1.mem q.target (patchSizeOf .detour q.target q.detour)
        = readBytes m q.target (patchSizeOf .detour q.target q.detour) →
      (q.apply .detour selfId tid thr1 insns tb supply m vw).1 = .ok () →
      (PatchDetour.remove (q.apply .detour selfId tid thr1 insns tb supply m vw).2.1
          .detour tid thr2
          (q.apply .detour selfId tid thr1 insns tb supply m vw).2.2.1
          (q.apply .detour selfId tid thr1 insns tb supply m vw).2.2.2).1 = .ok () →
      readBytes
          (PatchDetour.remove (q.apply .detour selfId tid thr1 insns tb supply m vw).2.1
            .detour tid thr2
            (q.apply .detour selfId tid thr1 insns tb supply m vw).2.2.1
            (q.apply .detour selfId tid thr1 insns tb supply m vw).2.2.2).2.2.1
          q.target (patchSizeOf .detour q.target q.detour)
        = readBytes m q.target (patchSizeOf .detour q.target q.detour)) := by
  constructor
  · intro p thr1 thr2 m hA hok1 hok2
    by_cases hd : p.detached
    · simp [PatchRaw.apply, PatchRaw.remove, hA, hd]
    · by_cases hv : verifyPatchThreads thr1 p.target p.data.length
      · by_cases hv2 : verifyPatchThreads thr2 p.target p.data.length
        · simp [PatchRaw.apply, PatchRaw.remove, hA, hd, hv, hv2]
          rw [readBytes_writeBytes_of_length _ _ _ _ (readBytes_length m p.target p.data.length)]
        · exfalso
          simp [PatchRaw.apply, PatchRaw.remove, hA, hd, hv, hv2] at hok2
      · exfalso
        simp [PatchRaw.apply, hA, hd, hv] at hok1
  · intro q selfId tid thr1 thr2 insns tb supply m vw st1 isz hA hD hbt hpres hok1 hok2
    simp only [PatchDetour.apply, hA, hD, Bool.false_eq_true, if_false] at hok1 hok2 ⊢
    rw [hbt] at hok1 hok2 ⊢
    simp only [readBytes_length] at hok1 hok2 ⊢
    by_cases hv : verifyPatchThreads thr1 q.target (patchSizeOf .detour q.target q.detour)
    · simp only [hv, Bool.not_true, Bool.false_eq_true, if_false] at hok1 hok2 ⊢
      simp only [writePatchOf, writePatchDetour] at hok1 hok2 ⊢
      rcases hwj : writeJump st1 q.target q.detour false with e | ⟨n, st2⟩
      · rw [hwj] at hok1
        exact absurd hok1 (by simp)
      · rw [hwj] at hok2
        by_cases hv2 : verifyPatchThreads thr2 q.target (patchSizeOf .detour q.target q.detour)
        · by_cases hv3 : verifyPatchThreads thr2 tb kTrampSize
          · simp [PatchDetour.remove, removePatchOf, readBytes_length, hv2, hv3]
            rw [readBytes_writeBytes_of_length _ _ _ _
              (readBytes_length st1.mem q.target (patchSizeOf .detour q.target q.detour))]
            exact hpres
          · exfalso
            simp [PatchDetour.remove, readBytes_length, hv2, hv3] at hok2
        · exfalso
          simp [PatchDetour.remove, readBytes_length, hv2] at hok2
    · exfalso
      simp [hv] at hok1

/-! ## Concrete witnesses -/

def c8ctxW : DrCtx := ⟨0, 0, 0, 0, 0⟩

/-- C8 amended, witnessed on the all-zero context (register 0 selected). -/
theorem c8_dr_remove_reverses_all_but_le_witness :
    drSelect c8ctxW = some 0
    ∧ c8ctxW.dr7 < 2 ^ 64
    ∧ (drRoundTrip 1 7 100 [] [] c8ctxW).2.2.2.dr7 = c8ctxW.dr7 ||| (1 <<< 8) :=
  ⟨rfl, by decide,
    (c8_dr_remove_reverses_all_but_le 1 7 100 [] [] c8ctxW 0 rfl (by decide)).2.2.2.2.2⟩

def c4wSt0 : EmitSt := ⟨fun _ => 0, [], [], []⟩

def c4wInsns : List Insn := [⟨Mnem.other, UdOp.other, [1, 2, 3, 4, 5], 1000⟩]

def c4wBuild : Except String (EmitSt × Nat) :=
  buildTrampoline c4wSt0 c4wInsns 5 1000 2000

def c4wSt1 : EmitSt :=
  match c4wBuild with
  | .ok (st, _) => st
  | .error _ => c4wSt0

def c4wSt2 : EmitSt :=
  match writePatchDetour c4wSt1 1000 1100 with
  | .ok (_, st) => st
  | .error _ => c4wSt1

/-- C4 amended, witnessed on a one-instruction prologue whose tail jump
falls back to push/ret and a near patch-site jump. -/
theorem c4_push_ret_flag_policy_witness :
    c4wSt0.calls = []
    ∧ buildTrampoline c4wSt0 c4wInsns 5 1000 2000 = .ok (c4wSt1, 5)
    ∧ writePatchDetour c4wSt1 1000 1100 = .ok (5, c4wSt2)
    ∧ ((∀ c ∈ c4wSt1.calls, c.allowPushRet = true)
      ∧ c4wSt2.calls = c4wSt1.calls ++ [JumpWrite.mk 1000 1100 false]) :=
  ⟨rfl, rfl, rfl,
    c4_push_ret_flag_policy c4wSt0 c4wInsns 5 1000 2000 c4wSt1 5 1100 5 c4wSt2 rfl rfl rfl⟩

def c2wMem : Mem := fun _ => 0

def c2wRaw : PatchRaw := ⟨false, false, 100, [9, 9], []⟩

def c2wInsns : List Insn := [⟨Mnem.other, UdOp.other, [0xCC], 100⟩]

def c2wQ : PatchDetour := ⟨false, false, 100, 500, none, [], []⟩

def c2wVw : VehWorld := ⟨[], [], ⟨0, 0, 0, 0, 0⟩⟩

def c2wSt1 : EmitSt :=
  match buildTrampoline ⟨c2wMem, [], [some 3000], []⟩ c2wInsns 1 100 2000 with
  | .ok (st, _) => st
  | .error _ => ⟨c2wMem, [], [], []⟩

/-- C2, witnessed with a thread parked at the target address: the raw
patch and a `PatchInt3` both fail with the busy-target error and leave
the target range untouched. -/
theorem c2_busy_target_fails_apply_witness :
    c2wRaw.apply [101] c2wMem = (.error threadBusyMsg, c2wRaw, c2wMem)
    ∧ ((c2wQ.apply .int3 2 7 [100] c2wInsns 2000 [some 3000] c2wMem c2wVw).1
        = .error threadBusyMsg
      ∧ (c2wQ.apply .int3 2 7 [100] c2wInsns 2000 [some 3000] c2wMem c2wVw).2.1.applied
        = false
      ∧ readBytes (c2wQ.apply .int3 2 7 [100] c2wInsns 2000 [some 3000] c2wMem c2wVw).2.2.1
          c2wQ.target (patchSizeOf .int3 c2wQ.target c2wQ.detour)
        = readBytes c2wMem c2wQ.target (patchSizeOf .int3 c2wQ.target c2wQ.detour)) :=
  ⟨c2_busy_target_fails_apply.1 c2wRaw [101] c2wMem 101 rfl rfl (by decide)
      (by decide) (by decide),
    c2_busy_target_fails_apply.2 .int3 c2wQ 2 7 [100] c2wInsns 2000 [some 3000]
      c2wMem c2wVw c2wSt1 1 100 rfl rfl rfl (by decide) (by decide) (by decide)
      (by decide)⟩

def c1wMem : Mem := fun _ => 0

def c1wRaw : PatchRaw := ⟨false, false, 100, [7, 8], []⟩

def c1wInsns : List Insn := [⟨Mnem.other, UdOp.other, [1, 2, 3, 4, 5], 1000⟩]

def c1wQ : PatchDetour := ⟨false, false, 1000, 1100, none, [], []⟩

def c1wSt1 : EmitSt :=
  match buildTrampoline ⟨c1wMem, [], [], []⟩ c1wInsns
      (patchSizeOf .detour 1000 1100) 1000 2000 with
  | .ok (st, _) => st
  | .error _ => ⟨c1wMem, [], [], []⟩

def c1wVw : VehWorld := ⟨[], [], ⟨0, 0, 0, 0, 0⟩⟩

/-- C1, witnessed on a concrete raw patch and a concrete near detour:
apply then remove restores the original target bytes. -/
theorem c1_apply_then_remove_roundtrip_witness :
    readBytes ((c1wRaw.apply [] c1wMem).2.1.remove [] (c1wRaw.apply [] c1wMem).2.2).2.2
        c1wRaw.target c1wRaw.data.length
      = readBytes c1wMem c1wRaw.target c1wRaw.data.length
    ∧ readBytes
        (PatchDetour.remove (c1wQ.apply .detour 1 7 [] c1wInsns 2000 [] c1wMem c1wVw).2.1
          .detour 7 []
          (c1wQ.apply .detour 1 7 [] c1wInsns 2000 [] c1wMem c1wVw).2.2.1
          (c1wQ.apply .detour 1 7 [] c1wInsns 2000 [] c1wMem c1wVw).2.2.2).2.2.1
        c1wQ.target (patchSizeOf .detour c1wQ.target c1wQ.detour)
      = readBytes c1wMem c1wQ.target (patchSizeOf .detour c1wQ.target c1wQ.detour) :=
  ⟨c1_apply_then_remove_roundtrip.1 c1wRaw [] [] c1wMem rfl rfl rfl,
    c1_apply_then_remove_roundtrip.2 c1wQ 1 7 [] [] c1wInsns 2000 [] c1wMem c1wVw
      c1wSt1 5 rfl rfl rfl (by decide) rfl rfl⟩

end Hadesmem
